import Mathlib

/-!
Verification of the agent orchestrator in `src/agent.py`.

The core of the program is the pair of classes `Tool` and `Agent`:
a `Tool` wraps either a plain function or a delegation into another
`Agent` (`Tool.from_agent`), and `Agent.execute` runs a bounded loop
that calls an inference endpoint, dispatches requested tool calls,
detects hallucinated plain-text answers and retries, and terminates
with a plain string in every case.

The embedding below is a shallow one:

* the inference transport (`_call_ollama`) is an oracle
  `Nat → Resp`, consulted at an ever-increasing call counter; a
  raised transport exception is `Resp.err`;
* a Python object reference to an `Agent` is an index `Nat` into a
  world `W : Nat → Agent`; each agent's mutable `memory` list lives
  in the state `St`, indexed by that agent's index;
* the state also carries a `trace` of observable events (inference
  calls issued, memory appends) so that ordering claims are statable;
* the recursion of agent-to-agent delegation is bounded by a `fuel`
  parameter consumed once per nested `Agent.execute`; a result of
  `none` means the computation did not complete within that
  delegation depth.  All other loops of the source are bounded by
  their own counters (`max_iterations`, `max_retries`) and are
  translated structurally, so `none` can only arise from delegation
  depth.
-/

namespace AgentPy

/-- A property inside a JSON-schema `properties` object, e.g.
`{"type": "string", "description": "..."}`. -/
structure ParamProp where
  type : String
  description : String
deriving DecidableEq

/-- The `parameters` JSON schema of a tool:
`{"type": "object", "properties": {...}, "required": [...]}`. -/
structure Schema where
  type : String
  properties : List (String × ParamProp)
  required : List String
deriving DecidableEq

/-- The inner `function` object of an OpenAI function-calling schema. -/
structure FnSchema where
  name : String
  description : String
  parameters : Schema
deriving DecidableEq

/-- `Tool.to_schema`'s result: `{"type": "function", "function": {...}}`. -/
structure ToolSchema where
  type : String
  function : FnSchema
deriving DecidableEq

/-- One requested call's `function` object: `{"name": ..., "arguments": {...}}`.
Arguments are a mapping from argument name to (string) value. -/
structure FnCall where
  name : String
  arguments : List (String × String)
deriving DecidableEq

/-- One entry of a response's `tool_calls` list. -/
structure ToolCall where
  function : FnCall
deriving DecidableEq

/-- A conversation message `{"role": ..., "content": ..., "tool_calls": [...]}`.
Messages written by the program itself always have `tool_calls = []`; a
response message from the endpoint may carry requested calls. -/
structure Message where
  role : String
  content : String
  tool_calls : List ToolCall
deriving DecidableEq

/-- The behavior of a tool: a plain function (its Python body, with a raised
exception modelled as `Except.error`), or a delegation to the agent at the
given index (the closure created by `Tool.from_agent`). -/
inductive ToolFn where
  | pure (f : List (String × String) → Except String String)
  | delegate (target : Nat)

/-- Whether a tool wraps a plain function (no delegation). -/
def ToolFn.isPure : ToolFn → Bool
  | .pure _ => true
  | .delegate _ => false

/-- `class Tool`: name, description, parameter schema and behavior. -/
structure Tool where
  name : String
  description : String
  parameters : Schema
  fn : ToolFn

/-- `Tool.to_schema`: the OpenAI function-calling schema of a tool. -/
def Tool.to_schema (t : Tool) : ToolSchema :=
  { type := "function",
    function := { name := t.name, description := t.description, parameters := t.parameters } }

/-- `class Agent`: name, system prompt, model identifier and tool registry.
The registry is a Python dict keyed by tool name; `add_tool` keeps keys
unique, so it is embedded as a list looked up by name. The mutable
`memory` list lives in the interpreter state `St`, not here. -/
structure Agent where
  name : String
  system_prompt : String
  model : String
  tools : List Tool

/-- Python's `c.lower()` composed with replacing a space by an underscore,
applied characterwise: the normalization `agent.name.lower().replace(' ', '_')`
used by `Tool.from_agent`. -/
def normalize_name (nm : String) : String :=
  String.mk (nm.toList.map fun c => if c == ' ' then '_' else c.toLower)

/-- The name `Tool.from_agent` gives to the delegation tool for an agent
with the given name: `call_<normalized name>`. -/
def delegation_tool_name (agent_name : String) : String :=
  "call_" ++ normalize_name agent_name

/-- `Tool.from_agent`: wrap an agent as a tool.  `agent_id` stands for the
Python object reference the created closure captures; `agent` is the wrapped
agent's data (only its `name` and `system_prompt` are read here). -/
def Tool.from_agent (agent_id : Nat) (agent : Agent) : Tool :=
  { name := delegation_tool_name agent.name,
    description := "Delegate a task to the " ++ agent.name ++ ". " ++ agent.system_prompt,
    parameters :=
      { type := "object",
        properties :=
          [("task", { type := "string",
                      description := "The task or question to ask the agent" })],
        required := ["task"] },
    fn := .delegate agent_id }

/-- Dict lookup `self.tools[tool_name]` (with `tool_name in self.tools`):
the registered tool of that name, if any. -/
def findTool (tools : List Tool) (name : String) : Option Tool :=
  tools.find? fun t => t.name == name

/-! ### String helpers

Python's `startswith`, substring containment (`in`) and `strip` are
translated over character lists, so that everything evaluates inside the
kernel. -/

/-- `h` starts with `p` (Python `h.startswith(p)` over character lists). -/
def startsL : List Char → List Char → Bool
  | _, [] => true
  | [], _ :: _ => false
  | c :: h, d :: p => c == d && startsL h p

/-- `p` occurs as a contiguous run inside `h` (Python `p in h` over
character lists). -/
def hasSubL : List Char → List Char → Bool
  | [], p => startsL [] p
  | c :: h, p => startsL (c :: h) p || hasSubL h p

/-- Python `h.startswith(p)`. -/
def strStarts (h p : String) : Bool := startsL h.toList p.toList

/-- Python `p in h` (substring containment). -/
def strHas (h p : String) : Bool := hasSubL h.toList p.toList

/-- The characters Python's `str.strip()` removes. -/
def isStripChar (c : Char) : Bool :=
  c == ' ' || c == '\t' || c == '\n' || c == '\r' || c == '\x0b' || c == '\x0c'

/-- Python `response.strip()`. -/
def py_strip (s : String) : String :=
  String.mk (((s.toList.dropWhile isStripChar).reverse.dropWhile isStripChar).reverse)

/-- `Agent._is_hallucinated_response`: detect a plain-text response that is
really tool-call syntax.  The indicators are exactly those of the source:
two JSON prefixes, and three fixed substrings each required together with an
opening brace. -/
def is_hallucinated_response (response : String) : Bool :=
  let response := py_strip response
  strStarts response "\x7b\"name\":" ||
  strStarts response "\x7b\"parameters\":" ||
  (strHas response "call_search_agent" && strHas response "\x7b") ||
  (strHas response "call_playback_agent" && strHas response "\x7b") ||
  (strHas response "call_playlist_agent" && strHas response "\x7b")

/-! ### The inference transport and the interpreter state -/

/-- One transport response: a message from the endpoint (`Resp.msg`), or a
raised transport exception with message `e` (`Resp.err`) — a non-2xx status,
a connection error, or malformed JSON inside `_call_ollama`. -/
inductive Resp where
  | msg (m : Message)
  | err (e : String)
deriving DecidableEq

/-- The JSON payload `_call_ollama` posts: model, message history, optional
tool schemas, `stream` fixed to `false`. -/
structure Payload where
  model : String
  messages : List Message
  tools : Option (List ToolSchema)
  stream : Bool
deriving DecidableEq

/-- The payload of one inference call as `execute` builds it. -/
def mkPayload (model : String) (messages : List Message)
    (tools : Option (List ToolSchema)) : Payload :=
  { model := model, messages := messages, tools := tools, stream := false }

/-- An observable event: an inference call issued by agent `i` with the given
payload, or a message appended to agent `i`'s memory. -/
inductive Event where
  | infCall (i : Nat) (p : Payload)
  | append (i : Nat) (m : Message)
deriving DecidableEq

/-- The interpreter state: every agent's `memory` list (indexed by the
agent's index), the transport-call counter consumed by the oracle, and the
event trace. -/
structure St where
  mem : Nat → List Message
  k : Nat
  trace : List Event

/-- `self.memory.append(m)` on agent `i`, recorded in the trace. -/
def appendMem (i : Nat) (m : Message) (s : St) : St :=
  { s with mem := fun j => if j = i then s.mem j ++ [m] else s.mem j,
           trace := s.trace ++ [Event.append i m] }

/-- One transport call: consume the oracle counter and record the event. -/
def recordCall (i : Nat) (p : Payload) (s : St) : St :=
  { s with k := s.k + 1, trace := s.trace ++ [Event.infCall i p] }

/-- The number of inference calls recorded in a trace. -/
def callCount (tr : List Event) : Nat :=
  tr.countP fun e => match e with
    | .infCall _ _ => true
    | .append _ _ => false

/-! ### The translated source operations -/

/-- Source line 101: `max_retries = 2`. -/
def max_retries : Nat := 2

/-- The default of `execute`'s `max_iterations` parameter (source line 85). -/
def default_max_iterations : Nat := 10

/-- Source line 159: the terminal iteration-bound message. -/
def max_iterations_message : String :=
  "Max iterations reached without final answer."

/-- Source line 147: the fixed apologetic terminal message returned when the
final retry attempt still yields a hallucinated response. -/
def apology_message : String :=
  "I apologize, but I'm having trouble generating a proper response. Please try rephrasing your question."

/-- Source lines 140-143: the corrective system-role entry appended before a
hallucination retry. -/
def correction_message : Message :=
  { role := "system",
    content := "You MUST respond in natural language to the user. Do NOT output JSON or tool calls as text. Based on the tool results you received, provide a clear answer to the user's question.",
    tool_calls := [] }

/-- The text of the `TypeError` Python raises when `agent_function` is called
with arguments other than exactly `task`; modelled as a fixed string (the
exact interpreter-generated wording does not matter to any claim). -/
def type_error_message : String :=
  "agent_function() missing or unexpected arguments"

/-- `Tool.execute(**kwargs)` (source lines 38-44): run the underlying
behavior; any raised exception is caught and turned into the string
`"Error executing <name>: <cause>"`.  `runner` is the interpretation of a
delegation closure (`agent.execute(task)` at the ambient delegation depth);
for a plain function the result is returned unchanged (its `str(...)` is the
identity here since behaviors return strings).  The `Option` is the
embedding's delegation-depth cutoff only: for a plain-function tool the
result is always `some`. -/
def Tool.execute (runner : Nat → String → St → Option (String × St))
    (t : Tool) (kwargs : List (String × String)) (s : St) : Option (String × St) :=
  match t.fn with
  | .pure f =>
    match f kwargs with
    | .ok result => some (result, s)
    | .error e => some ("Error executing " ++ t.name ++ ": " ++ e, s)
  | .delegate j =>
    match kwargs with
    | [("task", task)] => runner j task s
    | _ => some ("Error executing " ++ t.name ++ ": " ++ type_error_message, s)

/-- Source lines 112-127: execute each requested tool call in request order.
Look the name up in the registry; if absent the result is
`"Error: Tool <name> not found"`, otherwise the tool's `execute` result
(which never raises).  Append one tool-role entry per call. -/
def dispatch (runner : Nat → String → St → Option (String × St))
    (tools : List Tool) (i : Nat) : List ToolCall → St → Option St
  | [], s => some s
  | tool_call :: rest, s =>
    match
      (match findTool tools tool_call.function.name with
       | some t => Tool.execute runner t tool_call.function.arguments s
       | none => some ("Error: Tool " ++ tool_call.function.name ++ " not found", s)) with
    | none => none
    | some (result, s1) =>
      dispatch runner tools i rest
        (appendMem i { role := "tool", content := result, tool_calls := [] } s1)

/-- Source lines 102-157: the retry loop `for attempt in range(max_retries)`.
The `Nat` argument counts the attempts still available (`max_retries` on
entry; an argument of `a + 1` is Python's `attempt = max_retries - (a + 1)`,
so `a > 0` is `attempt < max_retries - 1`).  `cont` is what the `break` out
of the retry loop continues into: the next outer `while` iteration.
`messages` and `tools_schema` were computed before the retry loop and stay
fixed across retries, exactly as in the source. -/
def tryAttempt (oracle : Nat → Resp) (a : Agent)
    (runner : Nat → String → St → Option (String × St)) (i : Nat)
    (messages : List Message) (tools_schema : Option (List ToolSchema))
    (cont : St → Option (String × St)) : Nat → St → Option (String × St)
  | 0, s => cont s
  | attemptsLeft + 1, s =>
    let s1 := recordCall i (mkPayload a.model messages tools_schema) s
    match oracle s.k with
    | .err e =>
      if attemptsLeft > 0 then
        tryAttempt oracle a runner i messages tools_schema cont attemptsLeft s1
      else
        some ("Error calling LLM: " ++ e, s1)
    | .msg m =>
      if m.tool_calls ≠ [] then
        match dispatch runner a.tools i m.tool_calls (appendMem i m s1) with
        | none => none
        | some s2 => cont s2
      else
        if is_hallucinated_response m.content then
          if attemptsLeft > 0 then
            tryAttempt oracle a runner i messages tools_schema cont attemptsLeft
              (appendMem i correction_message s1)
          else
            some (apology_message, s1)
        else
          some (m.content,
            appendMem i { role := "assistant", content := m.content, tool_calls := [] } s1)

/-- Source lines 91-159: the outer `while iteration < max_iterations` loop.
The `Nat` argument is the number of iterations still allowed; at `0` the
loop exits with the terminal iteration-bound message.  Each iteration builds
the message context (system prompt, then the full memory) and the tool
schema list (`None` for an empty registry), then runs the retry loop. -/
def loop (oracle : Nat → Resp) (a : Agent)
    (runner : Nat → String → St → Option (String × St)) (i : Nat) :
    Nat → St → Option (String × St)
  | 0, s => some (max_iterations_message, s)
  | r + 1, s =>
    tryAttempt oracle a runner i
      ({ role := "system", content := a.system_prompt, tool_calls := [] } :: s.mem i)
      (if a.tools.isEmpty then none else some (a.tools.map Tool.to_schema))
      (loop oracle a runner i r) max_retries s

/-- `Agent.execute(user_input, max_iterations)` (source lines 85-159) for the
agent at index `i` of world `W`, at delegation depth `fuel`: append the
user-role entry, then run the bounded loop.  A delegation tool's closure
(`agent_function`) runs the target agent's `execute` with the default
iteration bound and one less unit of fuel; `none` means the computation did
not complete within `fuel` nested `execute` calls. -/
def execute (W : Nat → Agent) (oracle : Nat → Resp) :
    Nat → Nat → String → Nat → St → Option (String × St)
  | 0, _, _, _, _ => none
  | fuel + 1, i, user_input, max_iterations, s =>
    loop oracle (W i)
      (fun j task s1 => execute W oracle fuel j task default_max_iterations s1)
      i max_iterations
      (appendMem i { role := "user", content := user_input, tool_calls := [] } s)

/-- The delegation closure of `Tool.from_agent`, as `execute` installs it at
delegation depth `fuel`: `agent_function(task) = agent.execute(task)` with
the default iteration bound. -/
def execRunner (W : Nat → Agent) (oracle : Nat → Resp) (fuel : Nat) :
    Nat → String → St → Option (String × St) :=
  fun j task s1 => execute W oracle fuel j task default_max_iterations s1

/-! ### Helper lemmas on strings -/

theorem toList_append (a b : String) : (a ++ b).toList = a.toList ++ b.toList := by
  simp [String.toList, String.data_append]

theorem startsL_append_self (n b : List Char) : startsL (n ++ b) n = true := by
  induction n with
  | nil => simp [startsL]
  | cons c t ih => simp [startsL, ih]

theorem hasSubL_append_left (a r p : List Char) (h : startsL r p = true) :
    hasSubL (a ++ r) p = true := by
  induction a with
  | nil =>
    cases r with
    | nil => simpa [hasSubL] using h
    | cons c t => simp [hasSubL, h]
  | cons c t ih => simp [hasSubL, ih]

theorem strHas_mid (pre n post : String) : strHas (pre ++ n ++ post) n = true := by
  have h : (pre ++ n ++ post).toList = pre.toList ++ (n.toList ++ post.toList) := by
    simp [toList_append]
  rw [strHas, h]
  exact hasSubL_append_left _ _ _ (startsL_append_self _ _)

theorem strHas_suffix_self (pre n : String) : strHas (pre ++ n) n = true := by
  have h := strHas_mid pre n ""
  rwa [String.append_empty] at h

/-! ### Concrete worlds used by witnesses and counterexamples -/

/-- The empty initial state: every agent's memory is empty. -/
def st0 : St := { mem := fun _ => [], k := 0, trace := [] }

/-- A runner that is never consulted (used where no delegation tool exists). -/
def noRunner : Nat → String → St → Option (String × St) := fun _ _ _ => none

/-- A plain-function tool that always raises. -/
def boomTool : Tool :=
  { name := "boom_tool"
    description := "always fails"
    parameters := { type := "object", properties := [], required := [] }
    fn := ToolFn.pure (fun _ => Except.error "kaput") }

/-! ### Claim C2 -/

/-- Claim C2: for every Tool and argument mapping, if the tool's underlying
function raises (`Except.error e`), `Tool.execute` does not propagate the
exception: it returns `some` of the string
`"Error executing <tool-name>: <cause>"`, which contains the tool's name.
(`Tool.execute` is a total function here, so it never raises by
construction; the content of the claim is the returned error string.) -/
theorem tool_execute_error_string (runner : Nat → String → St → Option (String × St))
    (t : Tool) (kwargs : List (String × String)) (s : St)
    (f : List (String × String) → Except String String) (e : String)
    (hfn : t.fn = ToolFn.pure f) (herr : f kwargs = Except.error e) :
    Tool.execute runner t kwargs s
      = some ("Error executing " ++ t.name ++ ": " ++ e, s) ∧
    strHas ("Error executing " ++ t.name ++ ": " ++ e) t.name = true := by
  refine ⟨by simp [Tool.execute, hfn, herr], ?_⟩
  have h : "Error executing " ++ t.name ++ ": " ++ e
      = "Error executing " ++ t.name ++ (": " ++ e) := String.append_assoc _ _ _
  rw [h]
  exact strHas_mid _ _ _

/-- Witness for C2: the always-raising tool `boomTool`, invoked with the
empty argument mapping, yields the descriptive error string. -/
theorem tool_execute_error_string_witness :
    Tool.execute noRunner boomTool [] st0
      = some ("Error executing " ++ boomTool.name ++ ": " ++ "kaput", st0) ∧
    strHas ("Error executing " ++ boomTool.name ++ ": " ++ "kaput") boomTool.name = true :=
  tool_execute_error_string noRunner boomTool [] st0 (fun _ => Except.error "kaput") "kaput"
    rfl rfl

/-! ### Helper lemmas on the state -/

@[simp] theorem appendMem_mem (i : Nat) (m : Message) (s : St) (j : Nat) :
    (appendMem i m s).mem j = if j = i then s.mem j ++ [m] else s.mem j := rfl

@[simp] theorem appendMem_k (i : Nat) (m : Message) (s : St) :
    (appendMem i m s).k = s.k := rfl

@[simp] theorem appendMem_trace (i : Nat) (m : Message) (s : St) :
    (appendMem i m s).trace = s.trace ++ [Event.append i m] := rfl

@[simp] theorem recordCall_mem (i : Nat) (p : Payload) (s : St) :
    (recordCall i p s).mem = s.mem := rfl

@[simp] theorem recordCall_k (i : Nat) (p : Payload) (s : St) :
    (recordCall i p s).k = s.k + 1 := rfl

@[simp] theorem recordCall_trace (i : Nat) (p : Payload) (s : St) :
    (recordCall i p s).trace = s.trace ++ [Event.infCall i p] := rfl

@[simp] theorem callCount_append (a b : List Event) :
    callCount (a ++ b) = callCount a + callCount b := by
  simp [callCount, List.countP_append]

@[simp] theorem callCount_nil : callCount [] = 0 := rfl

@[simp] theorem callCount_cons_infCall (i : Nat) (p : Payload) (tr : List Event) :
    callCount (Event.infCall i p :: tr) = callCount tr + 1 := by
  simp [callCount, List.countP_cons]

@[simp] theorem callCount_cons_append (i : Nat) (m : Message) (tr : List Event) :
    callCount (Event.append i m :: tr) = callCount tr := by
  simp [callCount, List.countP_cons]

@[simp] theorem callCount_map_append {α : Type} (i : Nat) (g : α → Message) (l : List α) :
    callCount (l.map fun c => Event.append i (g c)) = 0 := by
  induction l with
  | nil => rfl
  | cons c cs ih => simpa using ih

/-! ### Claim C9 -/

/-- Claim C9: the tool `Tool.from_agent` builds from an agent has the name
`call_<normalized agent name>` (lower-cased, spaces replaced by
underscores — a derivation determined by the agent's name), a description
embedding the agent's system instruction, a parameter schema whose single
property is the required free-text `task` string, and an invocation that
synchronously runs the wrapped agent's `execute` on the task (with the
default iteration bound) and returns its result. -/
theorem from_agent_spec (agent_id : Nat) (agent : Agent) (W : Nat → Agent)
    (oracle : Nat → Resp) (fuel : Nat) (task : String) (s : St) :
    (Tool.from_agent agent_id agent).name = "call_" ++ normalize_name agent.name ∧
    strHas (Tool.from_agent agent_id agent).description agent.system_prompt = true ∧
    (Tool.from_agent agent_id agent).parameters.required = ["task"] ∧
    (Tool.from_agent agent_id agent).parameters.properties
      = [("task", { type := "string"
                    description := "The task or question to ask the agent" })] ∧
    Tool.execute (execRunner W oracle fuel) (Tool.from_agent agent_id agent)
        [("task", task)] s
      = execute W oracle fuel agent_id task default_max_iterations s := by
  refine ⟨rfl, ?_, rfl, rfl, rfl⟩
  show strHas ("Delegate a task to the " ++ agent.name ++ ". " ++ agent.system_prompt)
      agent.system_prompt = true
  exact strHas_suffix_self _ _

/-! ### Claim C5 -/

/-- Claim C5: if the transport fails (raises) on both attempts of the first
iteration, `execute` returns the descriptive error string
`"Error calling LLM: <cause>"` of the last attempt as a normal value — not
an exception — after exactly `max_retries = 2` transport calls, not fewer
or more; memory gains only the user entry. -/
theorem transport_failure_exhausts_retries (W : Nat → Agent) (oracle : Nat → Resp)
    (fuel i : Nat) (user_input : String) (n : Nat) (s : St) (e1 e2 : String)
    (h1 : oracle s.k = Resp.err e1) (h2 : oracle (s.k + 1) = Resp.err e2) :
    ∃ s', execute W oracle (fuel + 1) i user_input (n + 1) s
        = some ("Error calling LLM: " ++ e2, s') ∧
      callCount s'.trace = callCount s.trace + max_retries ∧
      s'.mem = (appendMem i { role := "user", content := user_input, tool_calls := [] } s).mem ∧
      s'.k = s.k + 2 := by
  simp only [execute, loop, max_retries, tryAttempt, appendMem_k, recordCall_k, h1, h2]
  refine ⟨_, rfl, ?_, by simp, by simp⟩
  simp [max_retries]

/-- A toolless reference agent world for witnesses. -/
def W0 : Nat → Agent :=
  fun _ => { name := "X", system_prompt := "sp", model := "llama3.2", tools := [] }

/-- An oracle whose transport always fails. -/
def oracleTimeout : Nat → Resp := fun _ => Resp.err "timeout"

/-- Witness for C5: with an always-failing transport, `execute` returns the
error string of the second attempt after exactly two transport calls. -/
theorem transport_failure_exhausts_retries_witness :
    ∃ s', execute W0 oracleTimeout 1 0 "hi" 3 st0
        = some ("Error calling LLM: " ++ "timeout", s') ∧
      callCount s'.trace = callCount st0.trace + max_retries ∧
      s'.mem = (appendMem 0 { role := "user", content := "hi", tool_calls := [] } st0).mem ∧
      s'.k = st0.k + 2 :=
  transport_failure_exhausts_retries W0 oracleTimeout 0 0 "hi" 2 st0 "timeout" "timeout" rfl rfl

/-! ### Claim C4 -/

/-- Claim C4: when a plain-text response is classified as hallucinated,
`execute` never returns it verbatim.  With an attempt remaining, the retry
loop appends the corrective system-role entry to memory and re-runs the same
attempt chain — same outer-iteration continuation `cont`, same (stale)
`messages` — so no extra outer-loop iteration is consumed; on the final
attempt it returns the fixed apologetic terminal message instead of the
text. -/
theorem hallucination_retry_policy (oracle : Nat → Resp) (a : Agent)
    (runner : Nat → String → St → Option (String × St)) (i : Nat)
    (messages : List Message) (tools_schema : Option (List ToolSchema))
    (cont : St → Option (String × St)) (al : Nat) (s : St) (m : Message)
    (hresp : oracle s.k = Resp.msg m) (hnotc : m.tool_calls = [])
    (hhall : is_hallucinated_response m.content = true) :
    tryAttempt oracle a runner i messages tools_schema cont (al + 2) s
      = tryAttempt oracle a runner i messages tools_schema cont (al + 1)
          (appendMem i correction_message
            (recordCall i (mkPayload a.model messages tools_schema) s)) ∧
    tryAttempt oracle a runner i messages tools_schema cont 1 s
      = some (apology_message, recordCall i (mkPayload a.model messages tools_schema) s) ∧
    correction_message.role = "system" := by
  refine ⟨?_, ?_, rfl⟩ <;>
    simp [tryAttempt, hresp, hnotc, hhall]

/-- An oracle that always answers with hallucinated tool-call-shaped text. -/
def oracleHall : Nat → Resp :=
  fun _ => Resp.msg { role := "assistant", content := "\x7b\"name\": \"get_playlist\"\x7d", tool_calls := [] }

/-- The hallucinated plain-text message `oracleHall` always returns. -/
def hallMsg : Message :=
  { role := "assistant", content := "\x7b\"name\": \"get_playlist\"\x7d", tool_calls := [] }

/-- A concrete outer-loop continuation for witnesses. -/
def contDemo : St → Option (String × St) := fun s1 => some ("done", s1)

/-- Witness for C4 at a concrete hallucinating oracle. -/
theorem hallucination_retry_policy_witness :
    tryAttempt oracleHall (W0 0) noRunner 0 [] none contDemo 2 st0
      = tryAttempt oracleHall (W0 0) noRunner 0 [] none contDemo 1
          (appendMem 0 correction_message
            (recordCall 0 (mkPayload (W0 0).model [] none) st0)) ∧
    tryAttempt oracleHall (W0 0) noRunner 0 [] none contDemo 1 st0
      = some (apology_message, recordCall 0 (mkPayload (W0 0).model [] none) st0) ∧
    correction_message.role = "system" :=
  hallucination_retry_policy oracleHall (W0 0) noRunner 0 [] none contDemo 0 st0 hallMsg
    rfl rfl rfl

/-! ### Claim C10 -/

/-- Claim C10: the three terminal strings — the iteration-bound message, the
transport-failure error string, and the apology — are returned by the loop
without being appended to memory (`recordCall` leaves every memory
unchanged, last conjunct), and a hallucinated text is never appended; only
a plain-text response that passes the hallucination check is recorded, as
an assistant-role entry, and returned. -/
theorem terminal_strings_not_recorded (oracle : Nat → Resp) (a : Agent)
    (runner : Nat → String → St → Option (String × St)) (i : Nat)
    (messages : List Message) (tools_schema : Option (List ToolSchema))
    (cont : St → Option (String × St)) :
    (∀ s, loop oracle a runner i 0 s = some (max_iterations_message, s)) ∧
    (∀ s e, oracle s.k = Resp.err e →
      tryAttempt oracle a runner i messages tools_schema cont 1 s
        = some ("Error calling LLM: " ++ e,
            recordCall i (mkPayload a.model messages tools_schema) s)) ∧
    (∀ s m, oracle s.k = Resp.msg m → m.tool_calls = [] →
      is_hallucinated_response m.content = true →
      tryAttempt oracle a runner i messages tools_schema cont 1 s
        = some (apology_message,
            recordCall i (mkPayload a.model messages tools_schema) s)) ∧
    (∀ s m al, oracle s.k = Resp.msg m → m.tool_calls = [] →
      is_hallucinated_response m.content = false →
      tryAttempt oracle a runner i messages tools_schema cont (al + 1) s
        = some (m.content,
            appendMem i { role := "assistant", content := m.content, tool_calls := [] }
              (recordCall i (mkPayload a.model messages tools_schema) s))) ∧
    (∀ s p j, (recordCall i p s).mem j = s.mem j) := by
  refine ⟨fun s => rfl, ?_, ?_, ?_, fun s p j => rfl⟩
  · intro s e h
    simp [tryAttempt, h]
  · intro s m h hc hh
    simp [tryAttempt, h, hc, hh]
  · intro s m al h hc hh
    simp [tryAttempt, h, hc, hh]

/-- An oracle answering a well-formed plain-text final answer. -/
def oracleHello : Nat → Resp :=
  fun _ => Resp.msg { role := "assistant", content := "hello", tool_calls := [] }

/-- The plain-text message `oracleHello` always returns. -/
def helloMsg : Message := { role := "assistant", content := "hello", tool_calls := [] }

/-- Witness for C10, instantiating each terminal branch at a concrete
oracle and state: the iteration-bound and transport-failure branches at
`oracleTimeout`, the apology branch at `oracleHall`, the accepted-answer
branch at `oracleHello`. -/
theorem terminal_strings_not_recorded_witness :
    (loop oracleTimeout (W0 0) noRunner 0 0 st0 = some (max_iterations_message, st0)) ∧
    (tryAttempt oracleTimeout (W0 0) noRunner 0 [] none contDemo 1 st0
      = some ("Error calling LLM: " ++ "timeout",
          recordCall 0 (mkPayload (W0 0).model [] none) st0)) ∧
    (tryAttempt oracleHall (W0 0) noRunner 0 [] none contDemo 1 st0
      = some (apology_message, recordCall 0 (mkPayload (W0 0).model [] none) st0)) ∧
    (tryAttempt oracleHello (W0 0) noRunner 0 [] none contDemo 1 st0
      = some ("hello",
          appendMem 0 { role := "assistant", content := "hello", tool_calls := [] }
            (recordCall 0 (mkPayload (W0 0).model [] none) st0))) ∧
    ((recordCall 0 (mkPayload (W0 0).model [] none) st0).mem 3 = st0.mem 3) :=
  ⟨(terminal_strings_not_recorded oracleTimeout (W0 0) noRunner 0 [] none contDemo).1 st0,
   (terminal_strings_not_recorded oracleTimeout (W0 0) noRunner 0 [] none contDemo).2.1 st0
     "timeout" rfl,
   (terminal_strings_not_recorded oracleHall (W0 0) noRunner 0 [] none contDemo).2.2.1 st0
     hallMsg rfl rfl rfl,
   (terminal_strings_not_recorded oracleHello (W0 0) noRunner 0 [] none contDemo).2.2.2.1 st0
     helloMsg 0 rfl rfl rfl,
   (terminal_strings_not_recorded oracleHello (W0 0) noRunner 0 [] none contDemo).2.2.2.2 st0
     (mkPayload (W0 0).model [] none) 3⟩

/-! ### Claim C3 -/

/-- The result string `dispatch` records for one requested call against a
registry of plain-function tools: the registered tool's result (or caught
error), or the not-found error for an unregistered name.  This is a derived
characterization used only to state theorems. -/
def pure_call_result (tools : List Tool) (c : ToolCall) : String :=
  match findTool tools c.function.name with
  | some t =>
    match t.fn with
    | .pure f =>
      match f c.function.arguments with
      | .ok r => r
      | .error e => "Error executing " ++ t.name ++ ": " ++ e
    | .delegate _ => ""
  | none => "Error: Tool " ++ c.function.name ++ " not found"

/-- The tool-role memory entry `dispatch` appends for one requested call. -/
def tool_entry (tools : List Tool) (c : ToolCall) : Message :=
  { role := "tool", content := pure_call_result tools c, tool_calls := [] }

/-- Dispatch over a registry of plain-function tools always succeeds,
appends exactly one tool-role entry per requested call in request order,
touches no other agent's memory, issues no inference call, and adds only
append events to the trace. -/
theorem dispatch_pure (runner : Nat → String → St → Option (String × St))
    (tools : List Tool) (i : Nat) (hpure : ∀ t ∈ tools, t.fn.isPure = true) :
    ∀ (calls : List ToolCall) (s : St), ∃ s',
      dispatch runner tools i calls s = some s' ∧
      s'.mem i = s.mem i ++ calls.map (tool_entry tools) ∧
      (∀ j, j ≠ i → s'.mem j = s.mem j) ∧
      s'.k = s.k ∧
      s'.trace = s.trace ++ calls.map (fun c => Event.append i (tool_entry tools c)) := by
  intro calls
  induction calls with
  | nil => exact fun s => ⟨s, rfl, by simp, fun _ _ => rfl, rfl, by simp⟩
  | cons c rest ih =>
    intro s
    have hstep : (match findTool tools c.function.name with
        | some t => Tool.execute runner t c.function.arguments s
        | none => some ("Error: Tool " ++ c.function.name ++ " not found", s))
        = some (pure_call_result tools c, s) := by
      cases hf : findTool tools c.function.name with
      | none => simp [pure_call_result, hf]
      | some t =>
        have ht : t ∈ tools := List.mem_of_find?_eq_some hf
        have hp := hpure t ht
        cases hfn : t.fn with
        | delegate j => rw [hfn] at hp; simp [ToolFn.isPure] at hp
        | pure f =>
          cases hr : f c.function.arguments with
          | ok r => simp [Tool.execute, pure_call_result, hf, hfn, hr]
          | error e => simp [Tool.execute, pure_call_result, hf, hfn, hr]
    obtain ⟨s', hrun, hmi, hmj, hk, htr⟩ := ih (appendMem i (tool_entry tools c) s)
    refine ⟨s', ?_, ?_, ?_, ?_, ?_⟩
    · rw [dispatch, hstep]
      exact hrun
    · rw [hmi]; simp [tool_entry]
    · intro j hj; rw [hmj j hj]; simp [hj]
    · rw [hk]; rfl
    · rw [htr]; simp

/-- Claim C3: when a response requests tool calls, the retry loop appends
the tool-call-bearing assistant entry to the agent's memory first, then one
tool-role entry per requested call in request order (for an unregistered
name, a result containing the literal text "not found"), and only then hands
the updated state to the outer-loop continuation that would issue the next
inference call: the only inference-call event added is the one already
issued, all appends precede any later event. -/
theorem tool_calls_recorded_in_order (oracle : Nat → Resp) (a : Agent)
    (runner : Nat → String → St → Option (String × St)) (i : Nat)
    (messages : List Message) (tools_schema : Option (List ToolSchema))
    (cont : St → Option (String × St)) (al : Nat) (s : St) (m : Message)
    (hpure : ∀ t ∈ a.tools, t.fn.isPure = true)
    (hresp : oracle s.k = Resp.msg m) (hcalls : m.tool_calls ≠ []) :
    ∃ s', tryAttempt oracle a runner i messages tools_schema cont (al + 1) s = cont s' ∧
      s'.mem i = s.mem i ++ m :: m.tool_calls.map (tool_entry a.tools) ∧
      (∀ j, j ≠ i → s'.mem j = s.mem j) ∧
      s'.k = s.k + 1 ∧
      s'.trace = s.trace
        ++ Event.infCall i (mkPayload a.model messages tools_schema)
        :: Event.append i m
        :: m.tool_calls.map (fun c => Event.append i (tool_entry a.tools c)) ∧
      (∀ c : ToolCall, findTool a.tools c.function.name = none →
        strHas (pure_call_result a.tools c) "not found" = true) := by
  obtain ⟨s', hrun, hmi, hmj, hk, htr⟩ :=
    dispatch_pure runner a.tools i hpure m.tool_calls
      (appendMem i m (recordCall i (mkPayload a.model messages tools_schema) s))
  refine ⟨s', ?_, ?_, ?_, ?_, ?_, ?_⟩
  · rw [tryAttempt]
    rw [hresp]
    simp only [ne_eq, hcalls, not_false_eq_true, if_true, hrun]
  · rw [hmi]; simp
  · intro j hj; rw [hmj j hj]; simp [hj]
  · rw [hk]; simp
  · rw [htr]; simp
  · intro c hc
    have heq : "Error: Tool " ++ c.function.name ++ " not found"
        = ("Error: Tool " ++ c.function.name ++ " ") ++ "not found" := by
      rw [String.append_assoc ("Error: Tool " ++ c.function.name) " " "not found"]
      exact congrArg (fun x => "Error: Tool " ++ c.function.name ++ x)
        (by decide : " not found" = " " ++ "not found")
    rw [pure_call_result, hc]
    show strHas ("Error: Tool " ++ c.function.name ++ " not found") "not found" = true
    rw [heq]
    exact strHas_suffix_self _ _

/-- A plain-function tool echoing its argument values. -/
def echoTool : Tool :=
  { name := "echo"
    description := "echo the arguments"
    parameters := { type := "object", properties := [], required := [] }
    fn := ToolFn.pure (fun args => Except.ok ("echo:" ++ String.join (args.map Prod.snd))) }

/-- A world whose agents all carry just the echo tool. -/
def Wecho : Nat → Agent :=
  fun _ => { name := "T", system_prompt := "sp", model := "m", tools := [echoTool] }

/-- A response message requesting two calls: one registered, one not. -/
def toolCallMsg : Message :=
  { role := "assistant", content := "",
    tool_calls := [⟨⟨"echo", [("q", "hi")]⟩⟩, ⟨⟨"nosuch", []⟩⟩] }

/-- An oracle that always requests the two calls of `toolCallMsg`. -/
def oracleCalls : Nat → Resp := fun _ => Resp.msg toolCallMsg

/-- Witness for C3: dispatching `toolCallMsg` against the echo registry. -/
theorem tool_calls_recorded_in_order_witness :
    ∃ s', tryAttempt oracleCalls (Wecho 0) noRunner 0 [] none contDemo 1 st0 = contDemo s' ∧
      s'.mem 0 = st0.mem 0 ++ toolCallMsg :: toolCallMsg.tool_calls.map (tool_entry (Wecho 0).tools) ∧
      (∀ j, j ≠ 0 → s'.mem j = st0.mem j) ∧
      s'.k = st0.k + 1 ∧
      s'.trace = st0.trace
        ++ Event.infCall 0 (mkPayload (Wecho 0).model [] none)
        :: Event.append 0 toolCallMsg
        :: toolCallMsg.tool_calls.map (fun c => Event.append 0 (tool_entry (Wecho 0).tools c)) ∧
      (∀ c : ToolCall, findTool (Wecho 0).tools c.function.name = none →
        strHas (pure_call_result (Wecho 0).tools c) "not found" = true) :=
  tool_calls_recorded_in_order oracleCalls (Wecho 0) noRunner 0 [] none contDemo 0 st0
    toolCallMsg (by decide) rfl (by decide)

/-! ### Claim C6 -/

/-- When every response requests tool calls (against a registry of
plain-function tools), each outer iteration makes exactly one transport
call and the loop runs down to the iteration-bound message. -/
theorem loop_all_tool_calls (oracle : Nat → Resp) (a : Agent)
    (runner : Nat → String → St → Option (String × St)) (i : Nat)
    (hpure : ∀ t ∈ a.tools, t.fn.isPure = true)
    (htc : ∀ k, ∃ m, oracle k = Resp.msg m ∧ m.tool_calls ≠ []) :
    ∀ (r : Nat) (s : St), ∃ s',
      loop oracle a runner i r s = some (max_iterations_message, s') ∧
      callCount s'.trace = callCount s.trace + r := by
  intro r
  induction r with
  | zero => exact fun s => ⟨s, rfl, by simp⟩
  | succ r ih =>
    intro s
    obtain ⟨m, hm, hcalls⟩ := htc s.k
    obtain ⟨s2, hrun, hmi, hmj, hk2, htr⟩ :=
      dispatch_pure runner a.tools i hpure m.tool_calls
        (appendMem i m (recordCall i
          (mkPayload a.model
            ({ role := "system", content := a.system_prompt, tool_calls := [] } :: s.mem i)
            (if a.tools.isEmpty then none else some (a.tools.map Tool.to_schema))) s))
    obtain ⟨s', hloop, hcount⟩ := ih s2
    refine ⟨s', ?_, ?_⟩
    · rw [loop]
      simp only [max_retries, tryAttempt, appendMem_k, recordCall_k, hm, ne_eq, hcalls,
        not_false_eq_true, if_true, hrun, hloop]
    · rw [hcount, htr]
      simp
      omega

/-- Claim C6: for every agent whose registered tools are plain functions,
if every inference response requests a tool call, then
`execute(user_input, max_iterations = n)` returns the fixed
"Max iterations reached without final answer." message as a normal string —
not an exception — after exactly `n` outer iterations (one transport call
each); the default iteration bound is 10. -/
theorem execute_iteration_bound (W : Nat → Agent) (oracle : Nat → Resp)
    (fuel i : Nat) (user_input : String)
    (hpure : ∀ t ∈ (W i).tools, t.fn.isPure = true)
    (htc : ∀ k, ∃ m, oracle k = Resp.msg m ∧ m.tool_calls ≠ []) :
    default_max_iterations = 10 ∧
    ∀ (n : Nat) (s : St), ∃ s',
      execute W oracle (fuel + 1) i user_input n s
        = some (max_iterations_message, s') ∧
      callCount s'.trace = callCount s.trace + n := by
  refine ⟨rfl, fun n s => ?_⟩
  obtain ⟨s', hl, hc⟩ :=
    loop_all_tool_calls oracle (W i)
      (fun j task s1 => execute W oracle fuel j task default_max_iterations s1) i hpure htc n
      (appendMem i { role := "user", content := user_input, tool_calls := [] } s)
  refine ⟨s', ?_, ?_⟩
  · rw [execute]
    exact hl
  · simpa using hc

/-- Witness for C6: the echo world under an oracle that always requests
tool calls, with `max_iterations = 3`. -/
theorem execute_iteration_bound_witness :
    default_max_iterations = 10 ∧
    ∃ s', execute Wecho oracleCalls 1 0 "ask" 3 st0
        = some (max_iterations_message, s') ∧
      callCount s'.trace = callCount st0.trace + 3 :=
  ⟨(execute_iteration_bound Wecho oracleCalls 0 0 "ask" (by decide)
      (fun _ => ⟨toolCallMsg, rfl, by decide⟩)).1,
   (execute_iteration_bound Wecho oracleCalls 0 0 "ask" (by decide)
      (fun _ => ⟨toolCallMsg, rfl, by decide⟩)).2 3 st0⟩

/-! ### Claim C7 -/

/-- Memory extension: every agent's memory in `s1` stays, unchanged and in
place, a prefix of its memory in `s2`. -/
def MemLe (s1 s2 : St) : Prop := ∀ j, ∃ t, s2.mem j = s1.mem j ++ t

theorem MemLe.rfl (s : St) : MemLe s s := fun _ => ⟨[], by simp⟩

theorem MemLe.trans {s1 s2 s3 : St} (h12 : MemLe s1 s2) (h23 : MemLe s2 s3) :
    MemLe s1 s3 := by
  intro j
  obtain ⟨t1, h1⟩ := h12 j
  obtain ⟨t2, h2⟩ := h23 j
  exact ⟨t1 ++ t2, by rw [h2, h1, List.append_assoc]⟩

theorem appendMem_memLe (i : Nat) (m : Message) (s : St) : MemLe s (appendMem i m s) := by
  intro j
  by_cases hj : j = i
  · exact ⟨[m], by simp [hj]⟩
  · exact ⟨[], by simp [hj]⟩

theorem recordCall_memLe (i : Nat) (p : Payload) (s : St) : MemLe s (recordCall i p s) :=
  fun _ => ⟨[], by simp⟩

/-- A runner (delegation interpretation) that only ever extends memories. -/
def RunnerPres (runner : Nat → String → St → Option (String × St)) : Prop :=
  ∀ j task s v s', runner j task s = some (v, s') → MemLe s s'

theorem toolExecute_memLe {runner : Nat → String → St → Option (String × St)}
    (hr : RunnerPres runner) (t : Tool) (kwargs : List (String × String))
    (s : St) (v : String) (s' : St)
    (h : Tool.execute runner t kwargs s = some (v, s')) : MemLe s s' := by
  rw [Tool.execute] at h
  split at h
  · split at h <;>
      · simp only [Option.some.injEq, Prod.mk.injEq] at h
        exact h.2 ▸ MemLe.rfl s
  · split at h
    · exact hr _ _ _ _ _ h
    · simp only [Option.some.injEq, Prod.mk.injEq] at h
      exact h.2 ▸ MemLe.rfl s

theorem dispatch_memLe {runner : Nat → String → St → Option (String × St)}
    (hr : RunnerPres runner) (tools : List Tool) (i : Nat) :
    ∀ (calls : List ToolCall) (s s' : St),
      dispatch runner tools i calls s = some s' → MemLe s s' := by
  intro calls
  induction calls with
  | nil =>
    intro s s' h
    rw [dispatch] at h
    cases h
    exact MemLe.rfl s
  | cons c rest ih =>
    intro s s' h
    rw [dispatch] at h
    split at h
    · exact Option.noConfusion h
    · rename_i result s1 heq
      refine MemLe.trans ?_ (MemLe.trans (appendMem_memLe i _ s1) (ih _ _ h))
      split at heq
      · exact toolExecute_memLe hr _ _ _ _ _ heq
      · simp only [Option.some.injEq, Prod.mk.injEq] at heq
        exact heq.2 ▸ MemLe.rfl s

theorem tryAttempt_memLe {runner : Nat → String → St → Option (String × St)}
    (hr : RunnerPres runner) (oracle : Nat → Resp) (a : Agent) (i : Nat)
    (messages : List Message) (tools_schema : Option (List ToolSchema))
    (cont : St → Option (String × St))
    (hcont : ∀ s v s', cont s = some (v, s') → MemLe s s') :
    ∀ (al : Nat) (s : St) (v : String) (s' : St),
      tryAttempt oracle a runner i messages tools_schema cont al s = some (v, s') →
      MemLe s s' := by
  intro al
  induction al with
  | zero =>
    intro s v s' h
    rw [tryAttempt] at h
    exact hcont s v s' h
  | succ al ih =>
    intro s v s' h
    rw [tryAttempt] at h
    split at h
    · -- transport exception
      split at h
      · exact MemLe.trans (recordCall_memLe _ _ _) (ih _ _ _ h)
      · simp only [Option.some.injEq, Prod.mk.injEq] at h
        exact h.2 ▸ recordCall_memLe _ _ _
    · -- response message
      split at h
      · -- tool calls requested
        split at h
        · exact Option.noConfusion h
        · rename_i s2 heq
          refine MemLe.trans ?_ (hcont _ _ _ h)
          refine MemLe.trans ?_ (dispatch_memLe hr _ _ _ _ _ heq)
          exact MemLe.trans (recordCall_memLe _ _ _) (appendMem_memLe _ _ _)
      · split at h
        · -- hallucinated
          split at h
          · exact MemLe.trans
              (MemLe.trans (recordCall_memLe _ _ _) (appendMem_memLe _ _ _)) (ih _ _ _ h)
          · simp only [Option.some.injEq, Prod.mk.injEq] at h
            exact h.2 ▸ recordCall_memLe _ _ _
        · -- accepted plain-text answer
          simp only [Option.some.injEq, Prod.mk.injEq] at h
          exact h.2 ▸ MemLe.trans (recordCall_memLe _ _ _) (appendMem_memLe _ _ _)

theorem loop_memLe {runner : Nat → String → St → Option (String × St)}
    (hr : RunnerPres runner) (oracle : Nat → Resp) (a : Agent) (i : Nat) :
    ∀ (r : Nat) (s : St) (v : String) (s' : St),
      loop oracle a runner i r s = some (v, s') → MemLe s s' := by
  intro r
  induction r with
  | zero =>
    intro s v s' h
    rw [loop] at h
    simp only [Option.some.injEq, Prod.mk.injEq] at h
    exact h.2 ▸ MemLe.rfl s
  | succ r ih =>
    intro s v s' h
    rw [loop] at h
    exact tryAttempt_memLe hr oracle a i _ _ _ (fun s2 v2 s2' h2 => ih s2 v2 s2' h2)
      _ _ _ _ h

theorem execute_memLe (W : Nat → Agent) (oracle : Nat → Resp) :
    ∀ (fuel i : Nat) (input : String) (n : Nat) (s : St) (v : String) (s' : St),
      execute W oracle fuel i input n s = some (v, s') → MemLe s s' := by
  intro fuel
  induction fuel with
  | zero =>
    intro i input n s v s' h
    exact Option.noConfusion h
  | succ fuel ih =>
    intro i input n s v s' h
    rw [execute] at h
    have hr : RunnerPres (fun j task s1 => execute W oracle fuel j task default_max_iterations s1) :=
      fun j task s1 v1 s1' h1 => ih j task default_max_iterations s1 v1 s1' h1
    exact MemLe.trans (appendMem_memLe _ _ _) (loop_memLe hr oracle (W i) i n _ v s' h)

/-- Claim C7: memory is append-only.  Whenever `execute` returns, every
agent's memory has its previous content unchanged at its position (old
memory is a prefix of new memory) and its length is monotonically
non-decreasing; this holds on every path, including all failure and retry
paths, and composes over any sequence of `execute` calls. -/
theorem memory_append_only (W : Nat → Agent) (oracle : Nat → Resp)
    (fuel i : Nat) (input : String) (n : Nat) (s : St) (v : String) (s' : St)
    (h : execute W oracle fuel i input n s = some (v, s')) :
    ∀ j, (∃ t, s'.mem j = s.mem j ++ t) ∧ (s.mem j).length ≤ (s'.mem j).length := by
  intro j
  obtain ⟨t, ht⟩ := execute_memLe W oracle fuel i input n s v s' h j
  exact ⟨⟨t, ht⟩, by rw [ht]; simp⟩

/-- The user-role entry of the C7 witness run. -/
def userHi : Message := { role := "user", content := "hi", tool_calls := [] }

/-- The payload of the single inference call of the C7 witness run. -/
def payHello : Payload :=
  mkPayload "llama3.2"
    [{ role := "system", content := "sp", tool_calls := [] }, userHi] none

/-- The assistant entry recording the accepted answer of the witness run. -/
def helloAsst : Message := { role := "assistant", content := "hello", tool_calls := [] }

/-- Witness for C7: one concrete `execute` run that returns "hello"; agent
0's old memory is a prefix of the new one. -/
theorem memory_append_only_witness :
    (∃ t, (appendMem 0 helloAsst (recordCall 0 payHello (appendMem 0 userHi st0))).mem 0
        = st0.mem 0 ++ t) ∧
    (st0.mem 0).length
      ≤ ((appendMem 0 helloAsst (recordCall 0 payHello (appendMem 0 userHi st0))).mem 0).length :=
  memory_append_only W0 oracleHello 1 0 "hi" 1 st0 "hello"
    (appendMem 0 helloAsst (recordCall 0 payHello (appendMem 0 userHi st0))) rfl 0

/-! ### Claim C1 -/

/-- If a response requests a single call to a registered delegation tool
whose delegated run does not complete, the whole retry loop does not
complete either: the `none` of the nested `execute` propagates through
`Tool.execute`, `dispatch` and `tryAttempt`. -/
theorem tryAttempt_delegate_none (oracle : Nat → Resp) (a : Agent)
    (runner : Nat → String → St → Option (String × St)) (i : Nat)
    (messages : List Message) (ts : Option (List ToolSchema))
    (cont : St → Option (String × St)) (al : Nat) (s : St) (m : Message)
    (c : ToolCall) (t : Tool) (j : Nat) (task : String)
    (hresp : oracle s.k = Resp.msg m) (hcalls : m.tool_calls = [c])
    (hfind : findTool a.tools c.function.name = some t)
    (hfn : t.fn = ToolFn.delegate j) (hargs : c.function.arguments = [("task", task)])
    (hrun : ∀ s1 : St, s1.k = s.k + 1 → runner j task s1 = none) :
    tryAttempt oracle a runner i messages ts cont (al + 1) s = none := by
  have hdisp : ∀ s1 : St, s1.k = s.k + 1 → dispatch runner a.tools i [c] s1 = none := by
    intro s1 hs1
    simp only [dispatch, hfind, Tool.execute, hfn, hargs, hrun s1 hs1]
  rw [tryAttempt, hresp]
  simp only [hcalls, ne_eq, List.cons_ne_nil, not_false_eq_true, if_true, hdisp,
    appendMem_k, recordCall_k]

/-- Reference-shaped agent "A" before wiring (as created, toolless). -/
def agentA0 : Agent := { name := "A", system_prompt := "pa", model := "llama3.2", tools := [] }

/-- Reference-shaped agent "B" before wiring (as created, toolless). -/
def agentB0 : Agent := { name := "B", system_prompt := "pb", model := "llama3.2", tools := [] }

/-- Agent "A" holding a delegation tool wrapping agent "B"
(`add_tool(Tool.from_agent(B))`). -/
def agentA : Agent := { agentA0 with tools := [Tool.from_agent 1 agentB0] }

/-- Agent "B" holding a delegation tool wrapping agent "A": together with
`agentA` this is the two-cycle of the claim (as `main()` wires the search
and playback agents into each other). -/
def agentB : Agent := { agentB0 with tools := [Tool.from_agent 0 agentA0] }

/-- The two-agent delegation cycle: index 0 is `agentA`, index 1 `agentB`. -/
def W2 : Nat → Agent := fun i => if i = 0 then agentA else agentB

/-- An adversarial but perfectly well-formed oracle that always requests one
delegation call: `call_b` at even transport counters (the calls issued by
agent A), `call_a` at odd ones (those issued by agent B). -/
def oracle2 : Nat → Resp := fun k =>
  Resp.msg { role := "assistant", content := "",
             tool_calls := [⟨⟨if k % 2 = 0 then "call_b" else "call_a", [("task", "go")]⟩⟩] }

/-- Under `oracle2`, a run of either agent of the cycle completes within no
delegation depth: each nested `execute` call receives a fresh iteration
budget, so the mutual recursion never returns. -/
theorem cycle_execute_none :
    ∀ (fuel : Nat),
      (∀ (input : String) (n : Nat) (s : St), s.k % 2 = 0 →
        execute W2 oracle2 fuel 0 input (n + 1) s = none) ∧
      (∀ (input : String) (n : Nat) (s : St), s.k % 2 = 1 →
        execute W2 oracle2 fuel 1 input (n + 1) s = none) := by
  intro fuel
  induction fuel with
  | zero => exact ⟨fun _ _ _ _ => rfl, fun _ _ _ _ => rfl⟩
  | succ f ih =>
    constructor
    · intro input n s hk
      rw [execute, loop]
      refine tryAttempt_delegate_none oracle2 (W2 0) _ 0 _ _ _ 1 _
        { role := "assistant", content := "",
          tool_calls := [⟨⟨"call_b", [("task", "go")]⟩⟩] }
        ⟨⟨"call_b", [("task", "go")]⟩⟩ (Tool.from_agent 1 agentB0) 1 "go"
        ?_ rfl rfl rfl rfl ?_
      · show oracle2 s.k = _
        simp [oracle2, hk]
      · intro s1 hs1
        refine ih.2 "go" 9 s1 ?_
        have hsk : s1.k = s.k + 1 := hs1
        omega
    · intro input n s hk
      rw [execute, loop]
      refine tryAttempt_delegate_none oracle2 (W2 1) _ 1 _ _ _ 1 _
        { role := "assistant", content := "",
          tool_calls := [⟨⟨"call_a", [("task", "go")]⟩⟩] }
        ⟨⟨"call_a", [("task", "go")]⟩⟩ (Tool.from_agent 0 agentA0) 0 "go"
        ?_ rfl rfl rfl rfl ?_
      · show oracle2 s.k = _
        have hk0 : ¬ (s.k % 2 = 0) := by omega
        simp [oracle2, hk0]
      · intro s1 hs1
        refine ih.1 "go" 9 s1 ?_
        have hsk : s1.k = s.k + 1 := hs1
        omega

/-- Claim C1 (amended): a delegation cycle is NOT depth-bounded by the
product of the participating agents' iteration caps.  Each individual
`execute` call bounds only its own outer iterations (cf. the iteration-bound
theorem); a delegated call receives a fresh budget, so under an inference
oracle that always requests delegation around the two-cycle, the top-level
`execute` (`max_iterations = 1`; delegated calls run at the default cap 10)
completes within NO finite delegation depth `fuel` — the nested call depth
exceeds every bound, in particular the product of the caps. -/
theorem delegation_cycle_unbounded (fuel : Nat) :
    execute W2 oracle2 fuel 0 "play some jazz" 1 st0 = none :=
  (cycle_execute_none fuel).1 "play some jazz" 0 st0 rfl

/-- Counterexample for C1 as stated: at delegation depth 201 — beyond the
product of the participating agents' iteration caps (at most 10 × 10 = 100
under the default bound) — the cyclic run has still not terminated, so the
total nested call depth is not bounded by that product and the cyclic call
does not terminate. -/
theorem delegation_cycle_depth_exceeds_product :
    execute W2 oracle2 201 0 "play some jazz" 1 st0 = none :=
  (cycle_execute_none 201).1 "play some jazz" 0 st0 rfl

/-! ### Claim C8 -/

/-- Modelled from the spec's words (§4.2 step 3 with §2 and §4.1): the
delegation-tool names of the reference configuration are the names
`Tool.from_agent` derives for the three specialized agents `main()` wraps
("Spotify Search Agent", "Playlist Agent", "Playback Agent"). -/
def spec_delegation_tool_names : List String :=
  [delegation_tool_name "Spotify Search Agent",
   delegation_tool_name "Playlist Agent",
   delegation_tool_name "Playback Agent"]

/-- Modelled from the spec's words: a plain-text response is classified as
hallucinated iff the stripped text begins with a tool-call-shaped JSON
opener, or textually contains a delegation-tool name together with a
JSON-object opening brace. -/
def spec_is_hallucinated (response : String) : Bool :=
  let r := py_strip response
  strStarts r "\x7b\"name\":" || strStarts r "\x7b\"parameters\":" ||
  (spec_delegation_tool_names.any fun nm => strHas r nm && strHas r "\x7b")

/-- A response that names the reference Search Agent's actual delegation
tool (`call_spotify_search_agent`) next to a JSON object. -/
def hallDemo : String := "call_spotify_search_agent(\x7b\"task\": \"queen\"\x7d)"

/-- Counterexample for C8 as stated: `hallDemo` contains a delegation-tool
name of the reference configuration together with an opening brace, so the
spec-side classifier flags it, but `_is_hallucinated_response` does not:
the source checks the literal `'call_search_agent'`, which is not the
Search Agent's delegation-tool name (`call_spotify_search_agent`). -/
theorem hallucination_classifier_mismatch :
    spec_is_hallucinated hallDemo = true ∧
    is_hallucinated_response hallDemo = false ∧
    spec_delegation_tool_names
      = ["call_spotify_search_agent", "call_playlist_agent", "call_playback_agent"] :=
  ⟨by decide, by decide, by decide⟩

/-- The three fixed indicator substrings the source actually checks. -/
def hallucination_indicator_names : List String :=
  ["call_search_agent", "call_playback_agent", "call_playlist_agent"]

/-- Grouping identity for the indicator disjunction. -/
theorem bool_or_group (a b c d e g : Bool) :
    (a || b || (c && g) || (d && g) || (e && g))
      = (a || b || ((c || (d || (e || false))) && g)) := by
  cases a <;> cases b <;> cases c <;> cases d <;> cases e <;> cases g <;> rfl

/-- The classifier the amended C8 describes: true iff the stripped text
starts with one of the two tool-call JSON openers, or contains one of the
three fixed indicator substrings — `call_search_agent`,
`call_playback_agent`, `call_playlist_agent` — together with an opening
brace.  (The first indicator differs from the reference Search Agent's
actual delegation-tool name `call_spotify_search_agent`.) -/
def amended_is_hallucinated (response : String) : Bool :=
  let r := py_strip response
  strStarts r "\x7b\"name\":" || strStarts r "\x7b\"parameters\":" ||
  (hallucination_indicator_names.any fun nm => strHas r nm) && strHas r "\x7b"

/-- Claim C8 (amended): `_is_hallucinated_response` returns true exactly
when the stripped text starts with a tool-call-shaped JSON opener or
contains one of the three fixed indicator substrings together with an
opening brace — the indicators being literals, not the configuration's
delegation-tool names. -/
theorem hallucination_classifier_characterization (r : String) :
    is_hallucinated_response r = amended_is_hallucinated r := by
  show (strStarts (py_strip r) "\x7b\"name\":" || strStarts (py_strip r) "\x7b\"parameters\":" ||
      (strHas (py_strip r) "call_search_agent" && strHas (py_strip r) "\x7b") ||
      (strHas (py_strip r) "call_playback_agent" && strHas (py_strip r) "\x7b") ||
      (strHas (py_strip r) "call_playlist_agent" && strHas (py_strip r) "\x7b"))
    = (strStarts (py_strip r) "\x7b\"name\":" || strStarts (py_strip r) "\x7b\"parameters\":" ||
      ((strHas (py_strip r) "call_search_agent" ||
        (strHas (py_strip r) "call_playback_agent" ||
         (strHas (py_strip r) "call_playlist_agent" || false))) && strHas (py_strip r) "\x7b"))
  exact bool_or_group _ _ _ _ _ _

end AgentPy
